import Mathlib

/-!
Verification of the heuristic project-classification engine of the
`context-engineer-agent` repository, as a shallow embedding in Lean 4.

The embedded functions mirror, definition by definition, the Python sources:
  * `src/utils.py`              (file statistics, extensions)
  * `src/analyzers/project_analyzer.py`  (languages, complexity, architecture)
  * `src/analyzers/framework_detector.py` (framework scores, detection)
  * `src/agent.py`              (readiness score, analysis entry point)

Filesystem access is modelled by explicit data (lists of entries) or by
Boolean/parse-result probe functions; Python floats are modelled as exact
rationals; Python's `int()` truncation is modelled by `pyInt`.
-/

/-! ## Generic helpers -/

/-- Python `int()` on a rational: truncation toward zero. -/
def pyInt (q : ℚ) : ℤ := if q < 0 then -⌊-q⌋ else ⌊q⌋

/-- Lower-case an ASCII letter (models `str.lower` on the ASCII names that
occur in the repository's catalogs and file names). -/
def lowerChar (c : Char) : Char :=
  if 'A' ≤ c ∧ c ≤ 'Z' then Char.ofNat (c.toNat + 32) else c

/-- `str.lower()` on an ASCII string, character by character. -/
def strLower (s : String) : String := ⟨s.data.map lowerChar⟩

/-- Python's substring test `needle in hay`. -/
def strContains (hay needle : String) : Bool :=
  decide (needle.data <:+: hay.data)

/-- Does the string end with the character `c`? (used for the `'/'`-suffixed
directory indicators of the catalogs). -/
def strEndsWithChar (s : String) (c : Char) : Bool := s.data.getLast? == some c

/-- Python `str.rstrip('/')`: drop all trailing slashes. -/
def rstripSlash (s : String) : String :=
  ⟨(s.data.reverse.dropWhile (· == '/')).reverse⟩

/-- Does the string start with a dot? (dotfile test in `_is_ignored_file`). -/
def startsWithDot (s : String) : Bool := s.data.head? == some '.'

/-! ## Python's stable descending sort

`sorted(xs, key=score, reverse=True)` is a stable sort: elements are ordered
by decreasing score and elements with equal scores keep their original
relative order.  `insertDesc`/`sortDesc` implement exactly that ordering
(insertion sort, inserting each element after all earlier elements of
greater-or-equal score). -/

def insertDesc (score : α → ℕ) (x : α) : List α → List α
  | [] => [x]
  | y :: ys => if score y ≤ score x then x :: y :: ys else y :: insertDesc score x ys

def sortDesc (score : α → ℕ) : List α → List α
  | [] => []
  | x :: xs => insertDesc score x (sortDesc score xs)

/-- The first element of a list attaining the maximal score (ties are won by
the earlier element); `none` on the empty list. -/
def firstMaxBy (score : α → ℕ) : List α → Option α
  | [] => none
  | x :: xs =>
    match firstMaxBy score xs with
    | none => some x
    | some y => if score x < score y then some y else some x

theorem mem_insertDesc (score : α → ℕ) (x : α) (l : List α) (a : α) :
    a ∈ insertDesc score x l ↔ a = x ∨ a ∈ l := by
  induction l with
  | nil => simp [insertDesc]
  | cons y ys ih =>
    by_cases h : score y ≤ score x
    · simp [insertDesc, h]
    · simp only [insertDesc, if_neg h, List.mem_cons, ih]
      tauto

theorem mem_sortDesc (score : α → ℕ) (l : List α) (a : α) :
    a ∈ sortDesc score l ↔ a ∈ l := by
  induction l with
  | nil => simp [sortDesc]
  | cons x xs ih => simp [sortDesc, mem_insertDesc, ih]

theorem head_insertDesc (score : α → ℕ) (x y : α) (ys : List α) :
    (insertDesc score x (y :: ys)).head? =
      some (if score y ≤ score x then x else y) := by
  by_cases h : score y ≤ score x <;> simp [insertDesc, h]

theorem head_sortDesc (score : α → ℕ) (l : List α) :
    (sortDesc score l).head? = firstMaxBy score l := by
  induction l with
  | nil => rfl
  | cons x xs ih =>
    cases h : sortDesc score xs with
    | nil =>
      have hx : firstMaxBy score xs = none := by rw [← ih, h]; rfl
      simp [sortDesc, h, insertDesc, firstMaxBy, hx]
    | cons y ys =>
      have hy : firstMaxBy score xs = some y := by rw [← ih, h]; rfl
      rw [sortDesc, h, head_insertDesc]
      simp only [firstMaxBy, hy]
      by_cases hc : score y ≤ score x
      · rw [if_pos hc, if_neg (show ¬score x < score y by omega)]
      · rw [if_neg hc, if_pos (show score x < score y by omega)]

theorem firstMaxBy_eq_none (score : α → ℕ) (l : List α) :
    firstMaxBy score l = none ↔ l = [] := by
  cases l with
  | nil => simp [firstMaxBy]
  | cons x xs =>
    simp only [firstMaxBy]
    cases firstMaxBy score xs with
    | none => simp
    | some y => by_cases h : score x < score y <;> simp [h]

/-- The element produced by `firstMaxBy` splits the list into a strictly
smaller-scored front part and achieves the maximum of the whole list. -/
theorem firstMaxBy_spec (score : α → ℕ) (l : List α) (x : α)
    (hx : firstMaxBy score l = some x) :
    ∃ l₁ l₂, l = l₁ ++ x :: l₂ ∧ (∀ y ∈ l₁, score y < score x) ∧
      ∀ y ∈ l, score y ≤ score x := by
  induction l generalizing x with
  | nil => simp [firstMaxBy] at hx
  | cons a as ih =>
    rw [firstMaxBy] at hx
    cases h : firstMaxBy score as with
    | none =>
      simp only [h] at hx
      have has : as = [] := (firstMaxBy_eq_none score as).mp h
      obtain rfl := Option.some.inj hx
      subst has
      exact ⟨[], [], rfl, by simp, by simp⟩
    | some y =>
      simp only [h] at hx
      obtain ⟨l₁, l₂, heq, hlt, hle⟩ := ih y h
      by_cases hc : score a < score y
      · rw [if_pos hc] at hx
        obtain rfl := Option.some.inj hx
        refine ⟨a :: l₁, l₂, by rw [heq]; rfl, ?_, ?_⟩
        · intro z hz
          rcases List.mem_cons.mp hz with rfl | hz
          · exact hc
          · exact hlt z hz
        · intro z hz
          rcases List.mem_cons.mp hz with rfl | hz
          · exact hc.le
          · exact hle z hz
      · rw [if_neg hc] at hx
        obtain rfl := Option.some.inj hx
        refine ⟨[], as, rfl, by simp, ?_⟩
        intro z hz
        rcases List.mem_cons.mp hz with rfl | hz
        · exact le_rfl
        · exact (hle z hz).trans (by omega)

/-- Inserting an element leaves the previous list as a sublist. -/
theorem sublist_insertDesc (score : α → ℕ) (x : α) (l : List α) :
    List.Sublist l (insertDesc score x l) := by
  induction l with
  | nil => simp [insertDesc]
  | cons y ys ih =>
    by_cases h : score y ≤ score x
    · simp [insertDesc, h]
    · rw [insertDesc, if_neg h]
      exact List.Sublist.cons₂ y ih

/-- If `b` occurs in a list and scores no more than `x`, then inserting `x`
places `x` before that occurrence of `b`. -/
theorem insertDesc_pair (score : α → ℕ) (x b : α) (l : List α)
    (hb : List.Sublist [b] l) (hscore : score b ≤ score x) :
    List.Sublist [x, b] (insertDesc score x l) := by
  induction l with
  | nil => simp at hb
  | cons y ys ih =>
    by_cases h : score y ≤ score x
    · rw [insertDesc, if_pos h]
      exact List.Sublist.cons₂ x hb
    · rw [insertDesc, if_neg h]
      cases hb with
      | cons _ hb' => exact List.Sublist.cons y (ih hb')
      | cons₂ _ hb' => exact absurd hscore h

/-- Stability of `sortDesc`: a pair of elements in order of non-increasing
score stays in the same relative order after sorting.  In particular two
elements with equal scores keep their original order. -/
theorem sortDesc_stable (score : α → ℕ) (a b : α) (l : List α)
    (hab : List.Sublist [a, b] l) (hscore : score b ≤ score a) :
    List.Sublist [a, b] (sortDesc score l) := by
  induction l with
  | nil => simp at hab
  | cons x xs ih =>
    rw [sortDesc]
    cases hab with
    | cons _ hab' =>
      exact (ih hab').trans (sublist_insertDesc score x _)
    | cons₂ _ hb =>
      have hb' : List.Sublist [b] (sortDesc score xs) := by
        have : b ∈ sortDesc score xs :=
          (mem_sortDesc score xs b).mpr (List.singleton_sublist.mp hb)
        exact List.singleton_sublist.mpr this
      exact insertDesc_pair score a b _ hb' hscore

/-! ## `src/utils.py` -/

/-- `pathlib`'s `Path.suffix` of a file name: the part from the last dot on,
empty when the name has no dot, starts with its only dot, or ends in a dot. -/
def pathSuffix (name : String) : String :=
  let cs := name.data
  match cs.reverse.findIdx? (· == '.') with
  | none => ""
  | some j =>
    let i := cs.length - 1 - j
    if 0 < i ∧ i < cs.length - 1 then ⟨cs.drop i⟩ else ""

/-- `get_file_extension`: the lower-cased suffix of the file name. -/
def get_file_extension (name : String) : String := strLower (pathSuffix name)

/-- The `text_extensions` set of `is_text_file`. -/
def text_extensions : List String :=
  [".py", ".js", ".ts", ".jsx", ".tsx", ".php", ".html", ".css", ".scss",
   ".json", ".xml", ".yaml", ".yml", ".md", ".txt", ".sql", ".sh", ".bat"]

/-- `is_text_file`. -/
def is_text_file (name : String) : Bool :=
  text_extensions.contains (get_file_extension name)

/-- One entry of a recursive directory listing (`Path.rglob('*')`): a file
with the directory components of its relative path, its base name and its
byte size, or a directory. -/
inductive FsEntry where
  | file (dirs : List String) (name : String) (size : Nat)
  | dir (path : List String)

/-- The record built by `calculate_file_stats` (`size_mb` is derived from
`size_bytes` below). -/
structure FileStats where
  total_files : Nat
  text_files : Nat
  directories : Nat
  size_bytes : Nat
  extensions : String → Nat

/-- `calculate_file_stats`: one pass over `project_path.rglob('*')`, counting
every file and directory of the tree.  Note: the traversal applies no
directory denylist — files under `node_modules` etc. are counted. -/
def calculate_file_stats (tree : List FsEntry) : FileStats :=
  tree.foldl
    (fun s e =>
      match e with
      | .file _ name size =>
        let ext := get_file_extension name
        { s with
          total_files := s.total_files + 1
          size_bytes := s.size_bytes + size
          extensions := fun x => if x = ext then s.extensions x + 1 else s.extensions x
          text_files := if is_text_file name then s.text_files + 1 else s.text_files }
      | .dir _ => { s with directories := s.directories + 1 })
    { total_files := 0, text_files := 0, directories := 0, size_bytes := 0
      extensions := fun _ => 0 }

/-- `stats['size_mb']`: total size in MiB, rounded to two decimals (Python's
float arithmetic and `round(x, 2)` are modelled in exact rational
arithmetic, rounding half up). -/
def FileStats.size_mb (s : FileStats) : ℚ :=
  (⌊(s.size_bytes : ℚ) / (1024 * 1024) * 100 + 1 / 2⌋ : ℚ) / 100

/-! ## `src/analyzers/project_analyzer.py` -/

/-- `ProjectAnalyzer.ignored_dirs` (used by `_is_ignored_dir`, i.e. only for
the directory analysis, not for the file statistics). -/
def ignored_dirs : List String :=
  ["node_modules", ".git", "__pycache__", ".pytest_cache",
   "venv", "env", ".env", "vendor", "dist", "build",
   ".next", ".nuxt", ".cache", "coverage", ".coverage",
   ".tox", ".mypy_cache", ".DS_Store", "Thumbs.db"]

/-- `ProjectAnalyzer._is_ignored_dir`. -/
def is_ignored_dir (name : String) : Bool := ignored_dirs.contains name

/-- `ProjectAnalyzer._is_ignored_file`: dotfiles and a few artifact
extensions (no directory-based exclusion). -/
def is_ignored_file (name : String) : Bool :=
  startsWithDot name ||
    [".pyc", ".pyo", ".log", ".tmp", ".temp"].contains (get_file_extension name)

/-- The `language_extensions` table of `detect_languages`, in declaration
order. -/
def language_extensions : List (String × List String) :=
  [("javascript", [".js", ".jsx", ".mjs"]),
   ("typescript", [".ts", ".tsx"]),
   ("python", [".py", ".pyx"]),
   ("php", [".php"]),
   ("java", [".java"]),
   ("c#", [".cs"]),
   ("c++", [".cpp", ".cc", ".cxx"]),
   ("c", [".c"]),
   ("go", [".go"]),
   ("rust", [".rs"]),
   ("ruby", [".rb"]),
   ("swift", [".swift"]),
   ("kotlin", [".kt"]),
   ("dart", [".dart"]),
   ("scala", [".scala"]),
   ("r", [".r"]),
   ("matlab", [".m"]),
   ("shell", [".sh", ".bash"]),
   ("powershell", [".ps1"]),
   ("sql", [".sql"]),
   ("html", [".html", ".htm"]),
   ("css", [".css", ".scss", ".sass"]),
   ("xml", [".xml"]),
   ("json", [".json"]),
   ("yaml", [".yml", ".yaml"]),
   ("markdown", [".md"])]

/-- The `Counter` of extensions built by `detect_languages`: every file of
the recursive listing that is not `_is_ignored_file` contributes one to its
extension's count (again, no directory denylist is applied). -/
def languageExtCounts (tree : List FsEntry) : String → Nat :=
  tree.foldl
    (fun counts e =>
      match e with
      | .file _ name _ =>
        if is_ignored_file name then counts
        else fun x => if x = get_file_extension name then counts x + 1 else counts x
      | .dir _ => counts)
    (fun _ => 0)

/-- `language_scores[lang]`: the summed counts of the language's
extensions. -/
def languageScore (counts : String → Nat) (exts : List String) : Nat :=
  (exts.map counts).sum

/-- `ProjectAnalyzer.detect_languages`: languages with at least one counted
extension, sorted by score with Python's stable descending sort. -/
def detect_languages (tree : List FsEntry) : List String :=
  let counts := languageExtCounts tree
  let detected := language_extensions.filter (fun le => le.2.any (fun e => decide (0 < counts e)))
  (sortDesc (fun le => languageScore counts le.2) detected).map Prod.fst

/-- The denylist test tree of the specification: only
`node_modules/big_file.js` and a root `index.html`. -/
def nodeModulesTree : List FsEntry :=
  [.dir ["node_modules"],
   .file ["node_modules"] "big_file.js" 300000,
   .file [] "index.html" 120]

/-! ## `src/analyzers/framework_detector.py`

The detector reads the filesystem through three primitive probes, modelled
as the fields of `Project`:
  * `fileExists name` — `(project_path / name).exists()`;
  * `parseManifest name` — the outcome of reading and parsing the manifest
    file `name` (`json.load`/line parsing); `.error` models a parse failure
    (the `except` branches of `_extract_dependencies`);
  * `regexFound pattern` — `_find_pattern_in_project`'s scan of the source
    files for a regex pattern (existence check, `False` also when the
    pattern fails to compile).
-/

structure FrameworkConfig where
  files : List String
  dependencies : List String
  patterns : List String
  config_files : List String

structure Project where
  fileExists : String → Bool
  parseManifest : String → Except String (List String)
  regexFound : String → Bool

/-- `FrameworkDetector.framework_patterns`, in declaration order. -/
def framework_patterns : List (String × FrameworkConfig) :=
  [("react",
    { files := ["package.json"]
      dependencies := ["react", "react-dom"]
      patterns := ["import.*from.*react", "jsx", "tsx"]
      config_files := ["webpack.config.js", "vite.config.js", "craco.config.js"] }),
   ("vue",
    { files := ["package.json"]
      dependencies := ["vue", "@vue/cli"]
      patterns := ["<template>", "<script>", "<style>"]
      config_files := ["vue.config.js", "vite.config.js"] }),
   ("angular",
    { files := ["package.json", "angular.json"]
      dependencies := ["@angular/core", "@angular/cli"]
      patterns := ["@Component", "@Injectable", "@NgModule"]
      config_files := ["angular.json", "tsconfig.json"] }),
   ("svelte",
    { files := ["package.json"]
      dependencies := ["svelte"]
      patterns := ["<script>", "<style>", "<div>"]
      config_files := ["svelte.config.js", "vite.config.js"] }),
   ("next",
    { files := ["package.json"]
      dependencies := ["next"]
      patterns := ["pages/", "app/", "getServerSideProps"]
      config_files := ["next.config.js"] }),
   ("nuxt",
    { files := ["package.json"]
      dependencies := ["nuxt"]
      patterns := ["pages/", "layouts/", "plugins/"]
      config_files := ["nuxt.config.js"] }),
   ("express",
    { files := ["package.json"]
      dependencies := ["express"]
      patterns := ["app.use", "app.get", "app.post", "require.*express"]
      config_files := ["server.js", "app.js", "index.js"] }),
   ("fastify",
    { files := ["package.json"]
      dependencies := ["fastify"]
      patterns := ["fastify.register", "fastify.get", "fastify.post"]
      config_files := ["server.js", "app.js"] }),
   ("koa",
    { files := ["package.json"]
      dependencies := ["koa"]
      patterns := ["app.use", "ctx.body", "require.*koa"]
      config_files := ["app.js", "server.js"] }),
   ("nestjs",
    { files := ["package.json"]
      dependencies := ["@nestjs/core", "@nestjs/common"]
      patterns := ["@Controller", "@Injectable", "@Module"]
      config_files := ["nest-cli.json", "main.ts"] }),
   ("laravel",
    { files := ["composer.json", "artisan"]
      dependencies := ["laravel/framework"]
      patterns := ["<?php", "namespace App", "use Illuminate"]
      config_files := ["config/app.php", "routes/web.php", ".env"] }),
   ("symfony",
    { files := ["composer.json"]
      dependencies := ["symfony/framework-bundle"]
      patterns := ["namespace App", "use Symfony"]
      config_files := ["config/services.yaml", "bin/console"] }),
   ("codeigniter",
    { files := ["composer.json"]
      dependencies := ["codeigniter4/framework"]
      patterns := ["class.*extends.*Controller", "CI_Controller"]
      config_files := ["app/Config/", "system/"] }),
   ("django",
    { files := ["requirements.txt", "manage.py"]
      dependencies := ["Django"]
      patterns := ["from django", "import django", "INSTALLED_APPS"]
      config_files := ["settings.py", "urls.py", "wsgi.py"] }),
   ("flask",
    { files := ["requirements.txt"]
      dependencies := ["Flask"]
      patterns := ["from flask", "app = Flask", "@app.route"]
      config_files := ["app.py", "main.py", "run.py"] }),
   ("fastapi",
    { files := ["requirements.txt"]
      dependencies := ["fastapi"]
      patterns := ["from fastapi", "app = FastAPI", "@app.get"]
      config_files := ["main.py", "app.py"] }),
   ("tornado",
    { files := ["requirements.txt"]
      dependencies := ["tornado"]
      patterns := ["import tornado", "tornado.web"]
      config_files := ["app.py", "main.py"] }),
   ("react-native",
    { files := ["package.json"]
      dependencies := ["react-native"]
      patterns := ["import.*react-native", "AppRegistry"]
      config_files := ["metro.config.js", "index.js"] }),
   ("flutter",
    { files := ["pubspec.yaml"]
      dependencies := ["flutter"]
      patterns := ["import.*flutter", "StatelessWidget", "StatefulWidget"]
      config_files := ["pubspec.yaml", "analysis_options.yaml"] }),
   ("electron",
    { files := ["package.json"]
      dependencies := ["electron"]
      patterns := ["require.*electron", "BrowserWindow"]
      config_files := ["main.js", "preload.js"] }),
   ("tauri",
    { files := ["Cargo.toml", "tauri.conf.json"]
      dependencies := ["tauri"]
      patterns := ["#[tauri::command]", "tauri::"]
      config_files := ["tauri.conf.json"] }),
   ("tailwind",
    { files := ["package.json"]
      dependencies := ["tailwindcss"]
      patterns := ["@tailwind", "tailwind.config"]
      config_files := ["tailwind.config.js"] }),
   ("bootstrap",
    { files := ["package.json"]
      dependencies := ["bootstrap"]
      patterns := ["import.*bootstrap", "class.*btn"]
      config_files := [] }),
   ("webpack",
    { files := ["package.json"]
      dependencies := ["webpack"]
      patterns := ["module.exports", "entry:", "output:"]
      config_files := ["webpack.config.js"] }),
   ("vite",
    { files := ["package.json"]
      dependencies := ["vite"]
      patterns := ["import.meta.env", "defineConfig"]
      config_files := ["vite.config.js", "vite.config.ts"] }),
   ("rollup",
    { files := ["package.json"]
      dependencies := ["rollup"]
      patterns := ["export default", "input:", "output:"]
      config_files := ["rollup.config.js"] })]

/-- The manifest files probed by `_calculate_framework_score`. -/
def manifest_files : List String :=
  ["package.json", "composer.json", "requirements.txt", "Cargo.toml"]

/-- `FrameworkDetector._extract_dependencies`: every branch wraps its parse
in `try/except` and a failed parse contributes nothing, so a `.error`
outcome yields the empty dependency set and is never re-raised. -/
def extract_dependencies (parse : Except String (List String)) : List String :=
  match parse with
  | .ok deps => deps
  | .error _ => []

/-- The characters that make `_find_pattern_in_project` treat a pattern as a
regex rather than as a file name. -/
def special_regex_chars : List Char := ['*', '?', '[', ']', '(', ')']

/-- `FrameworkDetector._find_pattern_in_project`: trailing-slash patterns
and plain names are existence checks; everything else is a regex scan. -/
def find_pattern_in_project (p : Project) (pattern : String) : Bool :=
  if strEndsWithChar pattern '/' then p.fileExists (rstripSlash pattern)
  else if !(pattern.data.any (fun c => special_regex_chars.contains c)) then
    p.fileExists pattern
  else p.regexFound pattern

/-- `FrameworkDetector._calculate_framework_score`: +3 per marker file,
+5 per dependency found in a present manifest, +2 per matched pattern,
+2 per present config file. -/
def calculate_framework_score (p : Project) (cfg : FrameworkConfig) : Nat :=
  let score := cfg.files.foldl (fun s f => if p.fileExists f then s + 3 else s) 0
  let score := manifest_files.foldl
    (fun s m =>
      if p.fileExists m then
        let dependencies := extract_dependencies (p.parseManifest m)
        cfg.dependencies.foldl (fun s d => if dependencies.contains d then s + 5 else s) s
      else s) score
  let score := cfg.patterns.foldl
    (fun s pat => if find_pattern_in_project p pat then s + 2 else s) score
  cfg.config_files.foldl (fun s c => if p.fileExists c then s + 2 else s) score

/-- `FrameworkDetector._calculate_confidence`. -/
def calculate_confidence (score : Nat) : String :=
  if 10 ≤ score then "very_high"
  else if 7 ≤ score then "high"
  else if 4 ≤ score then "medium"
  else if 2 ≤ score then "low"
  else "very_low"

structure DetectResult where
  primary : String
  all : List (String × Nat)
  confidence_scores : List (String × String)

/-- `FrameworkDetector.detect`: frameworks scoring 0 are dropped, the rest
are sorted by score with Python's stable descending sort, and the primary
framework is the head of the sorted list (or `"unknown"`). -/
def detect (p : Project) : DetectResult :=
  let detected := framework_patterns.filterMap
    (fun nc =>
      let score := calculate_framework_score p nc.2
      if 0 < score then some (nc.1, score) else none)
  let sorted := sortDesc (fun x => x.2) detected
  { primary := (sorted.head?.map Prod.fst).getD "unknown"
    all := sorted
    confidence_scores := detected.map (fun ns => (ns.1, calculate_confidence ns.2)) }

/-- The `modern_frameworks` set of `_calculate_modern_score`. -/
def modern_frameworks : List String :=
  ["react", "vue", "angular", "svelte", "next", "nuxt",
   "fastapi", "nestjs", "vite", "tailwind", "tauri"]

/-- `FrameworkDetector._calculate_modern_score`: the modern/total ratio
scaled to 10, truncated by Python's `int()` and clamped to `[1, 10]`;
5 when nothing was detected. -/
def calculate_modern_score (frameworks : List String) : ℤ :=
  let modern_count := (frameworks.filter (fun fw => modern_frameworks.contains fw)).length
  let total_count := frameworks.length
  if total_count = 0 then 5
  else min 10 (max 1 (pyInt ((modern_count : ℚ) / (total_count : ℚ) * 10)))

/-! ## `src/analyzers/project_analyzer.py`: complexity and architecture -/

/-- `ProjectAnalyzer.complexity_indicators`, in declaration order. -/
def complexity_indicators : List (String × List String) :=
  [("high", ["microservices/", "kubernetes/", "docker-compose.yml", "terraform/"]),
   ("medium", ["tests/", "docs/", "config/", "scripts/"]),
   ("low", ["simple structure", "single file"])]

/-- One indicator check of `_analyze_complexity`: a `'/'`-suffixed indicator
is a substring test against the root directory names, anything else is a
file-existence test at the project root. -/
def indicator_matched (rootDirs : List String) (fileExists : String → Bool)
    (ind : String) : Bool :=
  if strEndsWithChar ind '/' then rootDirs.any (fun d => strContains d (rstripSlash ind))
  else fileExists ind

/-- The points added per matched indicator of a complexity level
(`if complexity_level == 'high': +3 elif 'medium': +2`, nothing for the
`'low'` level). -/
def level_weight (lvl : String) : Nat :=
  if lvl == "high" then 3 else if lvl == "medium" then 2 else 0

/-- The numeric score accumulated by `ProjectAnalyzer._analyze_complexity`
before bucketing. -/
def analyze_complexity_score (total_files depth : Nat) (rootDirs : List String)
    (fileExists : String → Bool) : Nat :=
  let s := if 1000 < total_files then 3 else if 100 < total_files then 2
           else if 20 < total_files then 1 else 0
  let s := s + (if 8 < depth then 3 else if 5 < depth then 2
                else if 3 < depth then 1 else 0)
  complexity_indicators.foldl
    (fun s li =>
      li.2.foldl
        (fun s ind =>
          if indicator_matched rootDirs fileExists ind then s + level_weight li.1
          else s) s) s

/-- `ProjectAnalyzer._analyze_complexity`: the final bucket. -/
def analyze_complexity (total_files depth : Nat) (rootDirs : List String)
    (fileExists : String → Bool) : String :=
  let score := analyze_complexity_score total_files depth rootDirs fileExists
  if 8 ≤ score then "high" else if 4 ≤ score then "medium" else "low"

structure Architecture where
  pattern : String
  layers : List String
  has_separation : Bool
  has_modules : Bool

/-- `ProjectAnalyzer._analyze_architecture` over the root directory names
(first matching rule wins). -/
def analyze_architecture (rootDirsRaw : List String) : Architecture :=
  let root_dirs := rootDirsRaw.map strLower
  if ["models", "views", "controllers"].all (fun layer => root_dirs.contains layer) then
    { pattern := "mvc", layers := ["models", "views", "controllers"]
      has_separation := true, has_modules := false }
  else if ["controller", "service", "repository"].all
      (fun layer => strContains (String.intercalate " " root_dirs) layer) then
    { pattern := "layered", layers := ["controller", "service", "repository"]
      has_separation := true, has_modules := false }
  else if ["modules", "components", "features"].any (fun d => root_dirs.contains d) then
    { pattern := "modular", layers := [], has_separation := false, has_modules := true }
  else if ["services", "microservices"].any (fun d => root_dirs.contains d) then
    { pattern := "microservices", layers := [], has_separation := false, has_modules := true }
  else
    { pattern := "unknown", layers := [], has_separation := false, has_modules := false }

/-! ## `src/agent.py` -/

/-- `ContextEngineerAgent._calculate_ce_score`: base 5, +2 for `CLAUDE.md`,
±1 for complexity, +1 for a recognized framework, −0.5 per issue, then
`max(1, min(10, int(score)))`. -/
def calculate_ce_score (hasClaudeMd : Bool) (complexity : String)
    (primary : String) (issues : List String) : ℤ :=
  let score : ℚ := 5
  let score := if hasClaudeMd then score + 2 else score
  let score := if complexity == "low" then score + 1
               else if complexity == "high" then score - 1 else score
  let score := if primary != "unknown" then score + 1 else score
  let score := score - (issues.length : ℚ) * (1 / 2)
  max 1 (min 10 (pyInt score))

/-- The fatal errors of `ContextEngineerAgent.analyze_project`. -/
inductive AgentError where
  | notFound (msg : String)
  | permissionDenied (msg : String)

/-- `ContextEngineerAgent.analyze_project`: raises `FileNotFoundError` for a
missing path and `PermissionError` for an unreadable one; every inner
`except` block re-raises, and the outer one re-raises after logging, so
`body`'s outcome (the remaining analysis pipeline) passes through
unchanged. -/
def analyze_project (path : String) (pathExists readable : Bool)
    (body : Except AgentError α) : Except AgentError α :=
  if !pathExists then .error (.notFound ("Path progetto non trovato: " ++ path))
  else if !readable then .error (.permissionDenied ("Nessun permesso di lettura: " ++ path))
  else body

/-- A project whose only positive probe is the root file `artisan`: the
only framework scoring above zero is laravel (via its marker file, +3). -/
def artisanProject : Project :=
  { fileExists := fun s => s == "artisan"
    parseManifest := fun _ => .error "missing"
    regexFound := fun _ => false }

/-! ## Arithmetic lemmas about the scoring folds -/

theorem foldl_if_add (q : α → Bool) (k : ℕ) (l : List α) (i : ℕ) :
    l.foldl (fun s x => if q x then s + k else s) i
      = i + k * (l.filter q).length := by
  induction l generalizing i with
  | nil => simp
  | cons x xs ih =>
    by_cases h : q x
    · simp [List.foldl_cons, h, ih, List.filter_cons, Nat.mul_add, Nat.mul_one]
      omega
    · simp [List.foldl_cons, h, ih, List.filter_cons]

theorem foldl_ext (f g : β → α → β) (l : List α) (i : β)
    (h : ∀ b a, f b a = g b a) : l.foldl f i = l.foldl g i := by
  induction l generalizing i with
  | nil => rfl
  | cons x xs ih => rw [List.foldl_cons, List.foldl_cons, h, ih]

theorem foldl_add_sum (g : α → ℕ) (l : List α) (i : ℕ) :
    l.foldl (fun s x => s + g x) i = i + (l.map g).sum := by
  induction l generalizing i with
  | nil => simp
  | cons x xs ih => simp [List.foldl_cons, ih]; omega

theorem pairwise_insertDesc (score : α → ℕ) (x : α) (l : List α)
    (h : List.Pairwise (fun a b => score b ≤ score a) l) :
    List.Pairwise (fun a b => score b ≤ score a) (insertDesc score x l) := by
  induction l with
  | nil => simp [insertDesc]
  | cons y ys ih =>
    rcases List.pairwise_cons.mp h with ⟨hy, hys⟩
    by_cases hc : score y ≤ score x
    · rw [insertDesc, if_pos hc]
      refine List.pairwise_cons.mpr ⟨?_, h⟩
      intro z hz
      rcases List.mem_cons.mp hz with rfl | hz
      · exact hc
      · exact (hy z hz).trans hc
    · rw [insertDesc, if_neg hc]
      refine List.pairwise_cons.mpr ⟨?_, ih hys⟩
      intro z hz
      rcases (mem_insertDesc score x ys z).mp hz with rfl | hz
      · omega
      · exact hy z hz

theorem pairwise_sortDesc (score : α → ℕ) (l : List α) :
    List.Pairwise (fun a b => score b ≤ score a) (sortDesc score l) := by
  induction l with
  | nil => simp [sortDesc]
  | cons x xs ih => exact pairwise_insertDesc score x _ ih

/-- In a list whose first components are distinct, `find?` by first
component recovers exactly the member itself. -/
theorem find_of_nodup_fst (l : List (String × List String))
    (hn : (l.map Prod.fst).Nodup) (p : String × List String) (hp : p ∈ l) :
    l.find? (fun le => le.1 == p.1) = some p := by
  induction l with
  | nil => simp at hp
  | cons a as ih =>
    rcases List.mem_cons.mp hp with rfl | hp
    · simp [List.find?]
    · have ha : a.1 ≠ p.1 := by
        intro hcontra
        have : p.1 ∈ as.map Prod.fst := List.mem_map_of_mem Prod.fst hp
        rw [List.map_cons, List.nodup_cons] at hn
        exact hn.1 (hcontra ▸ this)
      have hna : (as.map Prod.fst).Nodup := by
        rw [List.map_cons, List.nodup_cons] at hn
        exact hn.2
      rw [List.find?]
      have : (a.1 == p.1) = false := by
        simp [ha]
      rw [this]
      exact ih hna hp

/-- The `0 < score` filter loop of `detect`, rephrased as filtering the
mapped score list. -/
theorem filterMap_score (l : List (String × FrameworkConfig))
    (score : FrameworkConfig → ℕ) :
    l.filterMap (fun nc =>
        let s := score nc.2
        if 0 < s then some (nc.1, s) else none)
      = (l.map (fun nc => (nc.1, score nc.2))).filter (fun x => decide (0 < x.2)) := by
  induction l with
  | nil => rfl
  | cons a as ih =>
    by_cases h : 0 < score a.2
    · simp only [List.filterMap_cons, List.map_cons, List.filter_cons]
      rw [if_pos h, ih]
      simp [h]
    · simp only [List.filterMap_cons, List.map_cons, List.filter_cons]
      rw [if_neg h, ih]
      simp [h]

/-! ## Claim-side definitions (worded from the specification) -/

/-- The raw readiness score exactly as the specification words it: base 5,
+2 for an existing rules file, +1/−1 for low/high complexity, +1 for a
recognized primary framework, −0.5 per issue. -/
def spec_ce_raw (hasClaudeMd : Bool) (complexity : String) (primary : String)
    (issues : List String) : ℚ :=
  5 + (if hasClaudeMd then 2 else 0)
    + (if complexity == "low" then 1 else if complexity == "high" then -1 else 0)
    + (if primary != "unknown" then 1 else 0)
    - (issues.length : ℚ) * (1 / 2)

/-- The modern score as the claim words it:
`round(10 × |detected ∩ modern-set| / |detected|)`, 5 when no framework was
detected. -/
def claim_modern_score (frameworks : List String) : ℤ :=
  if frameworks.length = 0 then 5
  else round ((10 * ((frameworks.filter (fun fw => modern_frameworks.contains fw)).length : ℚ))
                / (frameworks.length : ℚ))

theorem clamp_one_ten_bounds (z : ℤ) : 1 ≤ max 1 (min 10 z) ∧ max 1 (min 10 z) ≤ 10 :=
  ⟨le_max_left 1 _, max_le (by norm_num) (min_le_left 10 z)⟩

/-! ## The claims -/

/-- **C1.** The claim states that file counts, extension counts and the
language ranking come from a traversal that excludes denylisted directories
(`node_modules` etc.), so that a tree holding only `node_modules/big_file.js`
and a root `index.html` reports `total_files == 1` with `javascript` not
outranking `html`.  The code does not do this: `calculate_file_stats` walks
`rglob('*')` with no denylist and `detect_languages` filters only dotfiles
and artifact extensions, so the tree reports `total_files = 2`, counts the
excluded `.js` file, and ranks `javascript` first. -/
theorem calculate_file_stats_counts_denylisted :
    (calculate_file_stats nodeModulesTree).total_files = 2 ∧
    (calculate_file_stats nodeModulesTree).extensions ".js" = 1 ∧
    languageExtCounts nodeModulesTree ".js" = 1 ∧
    detect_languages nodeModulesTree = ["javascript", "html"] :=
  ⟨rfl, rfl, rfl, rfl⟩

/-- **C2.** The readiness score equals `max(1, min(10, int(s)))` for the raw
score `s` of the specification (base 5, +2 rules file, ±1 complexity,
+1 framework, −0.5 per issue); the result is always an integer in `[1, 10]`;
and the fractional raw score 6.5 truncates to 6 (not 7). -/
theorem calculate_ce_score_spec :
    (∀ (hasClaudeMd : Bool) (complexity primary : String) (issues : List String),
      calculate_ce_score hasClaudeMd complexity primary issues
          = max 1 (min 10 (pyInt (spec_ce_raw hasClaudeMd complexity primary issues))) ∧
      1 ≤ calculate_ce_score hasClaudeMd complexity primary issues ∧
      calculate_ce_score hasClaudeMd complexity primary issues ≤ 10) ∧
    calculate_ce_score true "medium" "unknown" ["CLAUDE.md troppo breve"] = 6 := by
  constructor
  · intro hasClaudeMd complexity primary issues
    have hfun : calculate_ce_score hasClaudeMd complexity primary issues
        = max 1 (min 10 (pyInt (spec_ce_raw hasClaudeMd complexity primary issues))) := by
      simp only [calculate_ce_score, spec_ce_raw]
      congr 1
      congr 1
      congr 1
      split_ifs <;> ring
    refine ⟨hfun, ?_, ?_⟩
    · rw [hfun]; exact (clamp_one_ten_bounds _).1
    · rw [hfun]; exact (clamp_one_ten_bounds _).2
  · have h : pyInt ((5 : ℚ) + 2 - ((1 : Nat) : ℚ) * (1 / 2)) = 6 := by
      rw [pyInt, if_neg (by norm_num), Int.floor_eq_iff]
      norm_num
    show max 1 (min 10 (pyInt ((5 : ℚ) + 2 - ((1 : Nat) : ℚ) * (1 / 2)))) = 6
    rw [h]
    norm_num

/-- **C4, counterexample.** The claim says the modern score equals
`round(10 × |detected ∩ modern| / |detected|)`; on the concrete detected set
`{express}` the code clamps the truncated ratio to at least 1 and returns 1,
while the claimed rounding formula gives 0. -/
theorem modern_score_counterexample :
    calculate_modern_score ["express"] ≠ claim_modern_score ["express"] ∧
    calculate_modern_score ["express"] = 1 ∧ claim_modern_score ["express"] = 0 := by
  have h1 : calculate_modern_score ["express"] = 1 := by
    show (if (1 : Nat) = 0 then (5 : ℤ)
          else min 10 (max 1 (pyInt (((0 : Nat) : ℚ) / ((1 : Nat) : ℚ) * 10)))) = 1
    norm_num [pyInt]
  have h2 : claim_modern_score ["express"] = 0 := by
    show (if (1 : Nat) = 0 then (5 : ℤ)
          else round ((10 * ((0 : Nat) : ℚ)) / ((1 : Nat) : ℚ))) = 0
    norm_num
  exact ⟨by rw [h1, h2]; decide, h1, h2⟩

/-- **C4, amended.** The modern score equals the *truncated* ratio
`int(10 × |detected ∩ modern| / |detected|)` clamped to `[1, 10]` (i.e.
`min(10, max(1, ⌊10·m/d⌋))` with natural floor division), and 5 when no
framework is detected. -/
theorem modern_score_amended (frameworks : List String) :
    calculate_modern_score frameworks =
      if frameworks.length = 0 then 5
      else min 10 (max 1
        (((10 * (frameworks.filter (fun fw => modern_frameworks.contains fw)).length
            / frameworks.length : ℕ) : ℤ))) := by
  unfold calculate_modern_score
  by_cases h : frameworks.length = 0
  · simp [h]
  · rw [if_neg h, if_neg h]
    congr 1
    congr 1
    set m := (frameworks.filter (fun fw => modern_frameworks.contains fw)).length with hm
    set t := frameworks.length with ht
    have hq : ((m : ℚ) / (t : ℚ) * 10) = (((10 * m : ℕ) : ℚ) / ((t : ℕ) : ℚ)) := by
      push_cast; ring
    rw [pyInt, if_neg (not_lt.mpr (by positivity)), hq]
    calc ⌊(((10 * m : ℕ) : ℚ) / ((t : ℕ) : ℚ))⌋
        = ((⌊(((10 * m : ℕ) : ℚ) / ((t : ℕ) : ℚ))⌋₊ : ℕ) : ℤ) :=
          (Int.natCast_floor_eq_floor (by positivity)).symm
      _ = ((10 * m / t : ℕ) : ℤ) := by rw [Nat.floor_div_eq_div]

/-- The file-count thresholds of the complexity score, as the claim words
them (each strict). -/
def spec_file_bonus (n : ℕ) : ℕ :=
  if 1000 < n then 3 else if 100 < n then 2 else if 20 < n then 1 else 0

/-- The depth thresholds of the complexity score, as the claim words them. -/
def spec_depth_bonus (d : ℕ) : ℕ :=
  if 8 < d then 3 else if 5 < d then 2 else if 3 < d then 1 else 0

/-- The high-complexity indicators named by the claim. -/
def high_indicators : List String :=
  ["microservices/", "kubernetes/", "docker-compose.yml", "terraform/"]

/-- The medium-complexity indicators named by the claim. -/
def medium_indicators : List String := ["tests/", "docs/", "config/", "scripts/"]

/-- **C5.** The complexity score is the sum of the strict file-count bonus
(+3/+2/+1 above 1000/100/20), the strict depth bonus (+3/+2/+1 above 8/5/3),
+3 per matched high indicator and +2 per matched medium indicator; exactly
1000 files earn only the `>100` bonus (and 100 only the `>20` one); the
bucket is `high` at score ≥ 8, `medium` at ≥ 4, else `low`. -/
theorem analyze_complexity_spec (total_files depth : ℕ) (rootDirs : List String)
    (fileExists : String → Bool) :
    analyze_complexity_score total_files depth rootDirs fileExists
      = spec_file_bonus total_files + spec_depth_bonus depth
        + 3 * (high_indicators.filter (indicator_matched rootDirs fileExists)).length
        + 2 * (medium_indicators.filter (indicator_matched rootDirs fileExists)).length ∧
    (spec_file_bonus 1000 = 2 ∧ spec_file_bonus 1001 = 3 ∧
      spec_file_bonus 100 = 1 ∧ spec_file_bonus 101 = 2) ∧
    analyze_complexity total_files depth rootDirs fileExists
      = (if 8 ≤ analyze_complexity_score total_files depth rootDirs fileExists then "high"
         else if 4 ≤ analyze_complexity_score total_files depth rootDirs fileExists then "medium"
         else "low") := by
  refine ⟨?_, ⟨rfl, rfl, rfl, rfl⟩, rfl⟩
  show (["simple structure", "single file"].foldl
      (fun s ind => if indicator_matched rootDirs fileExists ind then s + level_weight "low" else s)
      (["tests/", "docs/", "config/", "scripts/"].foldl
        (fun s ind => if indicator_matched rootDirs fileExists ind then s + level_weight "medium" else s)
        (["microservices/", "kubernetes/", "docker-compose.yml", "terraform/"].foldl
          (fun s ind => if indicator_matched rootDirs fileExists ind then s + level_weight "high" else s)
          ((if 1000 < total_files then 3 else if 100 < total_files then 2
            else if 20 < total_files then 1 else 0) +
           (if 8 < depth then 3 else if 5 < depth then 2 else if 3 < depth then 1 else 0)))))
    = spec_file_bonus total_files + spec_depth_bonus depth
      + 3 * (high_indicators.filter (indicator_matched rootDirs fileExists)).length
      + 2 * (medium_indicators.filter (indicator_matched rootDirs fileExists)).length
  rw [foldl_if_add, foldl_if_add, foldl_if_add]
  rw [show (if 1000 < total_files then 3 else if 100 < total_files then 2
            else if 20 < total_files then 1 else 0) = spec_file_bonus total_files from rfl]
  rw [show (if 8 < depth then 3 else if 5 < depth then 2
            else if 3 < depth then 1 else 0) = spec_depth_bonus depth from rfl]
  simp only [show level_weight "high" = 3 from rfl, show level_weight "medium" = 2 from rfl,
    show level_weight "low" = 0 from rfl, high_indicators, medium_indicators]
  omega

/-- The MVC rule of the claim: the lowercased root directories include all
of `models`, `views`, `controllers`. -/
abbrev mvc_condition (ld : List String) : Prop :=
  ∀ x ∈ (["models", "views", "controllers"] : List String), x ∈ ld

/-- The layered rule: the space-joined lowercase root-directory string
contains `controller`, `service` and `repository` as substrings. -/
abbrev layered_condition (ld : List String) : Prop :=
  ∀ x ∈ (["controller", "service", "repository"] : List String),
    x.data <:+: (String.intercalate " " ld).data

/-- The modular rule: one of `modules`, `components`, `features` is a root
directory. -/
abbrev modular_condition (ld : List String) : Prop :=
  ∃ x ∈ (["modules", "components", "features"] : List String), x ∈ ld

/-- The microservices rule: one of `services`, `microservices` is a root
directory. -/
abbrev microservices_condition (ld : List String) : Prop :=
  ∃ x ∈ (["services", "microservices"] : List String), x ∈ ld

theorem mvc_cond_iff (ld : List String) :
    (["models", "views", "controllers"].all (fun layer => ld.contains layer) = true)
      ↔ mvc_condition ld := by
  simp [mvc_condition]

theorem layered_cond_iff (ld : List String) :
    (["controller", "service", "repository"].all
        (fun layer => strContains (String.intercalate " " ld) layer) = true)
      ↔ layered_condition ld := by
  simp [layered_condition, strContains]

theorem modular_cond_iff (ld : List String) :
    (["modules", "components", "features"].any (fun d => ld.contains d) = true)
      ↔ modular_condition ld := by
  simp [modular_condition]

theorem microservices_cond_iff (ld : List String) :
    (["services", "microservices"].any (fun d => ld.contains d) = true)
      ↔ microservices_condition ld := by
  simp [microservices_condition]

/-- **C6.** Exactly one architecture pattern is returned, by the first
matching rule in the fixed order mvc → layered → modular → microservices →
unknown, with the conditions the claim states. -/
theorem analyze_architecture_spec (dirs : List String) :
    (analyze_architecture dirs).pattern =
      if mvc_condition (dirs.map strLower) then "mvc"
      else if layered_condition (dirs.map strLower) then "layered"
      else if modular_condition (dirs.map strLower) then "modular"
      else if microservices_condition (dirs.map strLower) then "microservices"
      else "unknown" := by
  simp only [analyze_architecture, mvc_cond_iff, layered_cond_iff, modular_cond_iff,
    microservices_cond_iff]
  split_ifs <;> rfl

/-- **C3.** `detect`'s primary framework: when no framework scores above
zero it is `"unknown"`, otherwise it is a positively-scoring catalog entry
that attains the maximal score and is preceded (within the positive
entries, i.e. in catalog declaration order) only by strictly
smaller-scoring entries. -/
theorem detect_primary_spec (p : Project) :
    ((framework_patterns.map (fun nc => (nc.1, calculate_framework_score p nc.2))).filter
        (fun x => decide (0 < x.2)) = [] →
      (detect p).primary = "unknown") ∧
    ((framework_patterns.map (fun nc => (nc.1, calculate_framework_score p nc.2))).filter
        (fun x => decide (0 < x.2)) ≠ [] →
      ∃ l₁ x l₂,
        (framework_patterns.map (fun nc => (nc.1, calculate_framework_score p nc.2))).filter
            (fun x => decide (0 < x.2)) = l₁ ++ x :: l₂ ∧
        (detect p).primary = x.1 ∧
        (∀ y ∈ (framework_patterns.map (fun nc => (nc.1, calculate_framework_score p nc.2))).filter
            (fun x => decide (0 < x.2)), y.2 ≤ x.2) ∧
        (∀ y ∈ l₁, y.2 < x.2)) := by
  have hprim : (detect p).primary =
      ((firstMaxBy (fun x => x.2)
          ((framework_patterns.map (fun nc => (nc.1, calculate_framework_score p nc.2))).filter
            (fun x => decide (0 < x.2)))).map Prod.fst).getD "unknown" := by
    simp only [detect, filterMap_score, head_sortDesc]
  constructor
  · intro hpos
    rw [hprim, hpos]
    rfl
  · intro hpos
    obtain ⟨x, hx⟩ : ∃ x, firstMaxBy (fun x => x.2)
        ((framework_patterns.map (fun nc => (nc.1, calculate_framework_score p nc.2))).filter
          (fun x => decide (0 < x.2))) = some x := by
      cases h : firstMaxBy (fun x => x.2)
          ((framework_patterns.map (fun nc => (nc.1, calculate_framework_score p nc.2))).filter
            (fun x => decide (0 < x.2))) with
      | none => exact absurd ((firstMaxBy_eq_none _ _).mp h) hpos
      | some y => exact ⟨y, rfl⟩
    obtain ⟨l₁, l₂, heq, hlt, hle⟩ := firstMaxBy_spec _ _ x hx
    refine ⟨l₁, x, l₂, heq, ?_, hle, hlt⟩
    rw [hprim, hx]
    rfl

/-- **C3, witness instance.** On a project whose only probe hit is the file
`artisan`, the only positive scorer is laravel. -/
theorem detect_primary_spec_witness :
    ∃ l₁ x l₂,
      (framework_patterns.map
          (fun nc => (nc.1, calculate_framework_score artisanProject nc.2))).filter
          (fun x => decide (0 < x.2)) = l₁ ++ x :: l₂ ∧
      (detect artisanProject).primary = x.1 ∧
      (∀ y ∈ (framework_patterns.map
          (fun nc => (nc.1, calculate_framework_score artisanProject nc.2))).filter
          (fun x => decide (0 < x.2)), y.2 ≤ x.2) ∧
      (∀ y ∈ l₁, y.2 < x.2) :=
  (detect_primary_spec artisanProject).2 (by decide)

/-- `_calculate_framework_score` in closed form: 3 per present marker file,
5 per dependency match per present manifest, 2 per matched pattern, 2 per
present config file. -/
theorem framework_score_decompose (p : Project) (cfg : FrameworkConfig) :
    calculate_framework_score p cfg
      = 3 * (cfg.files.filter p.fileExists).length
        + 5 * (manifest_files.map (fun m =>
            if p.fileExists m then
              (cfg.dependencies.filter (fun d =>
                (extract_dependencies (p.parseManifest m)).contains d)).length
            else 0)).sum
        + 2 * (cfg.patterns.filter (find_pattern_in_project p)).length
        + 2 * (cfg.config_files.filter p.fileExists).length := by
  show (cfg.config_files.foldl (fun s c => if p.fileExists c then s + 2 else s)
      (cfg.patterns.foldl (fun s pat => if find_pattern_in_project p pat then s + 2 else s)
        (manifest_files.foldl (fun s m =>
            if p.fileExists m then
              cfg.dependencies.foldl (fun s d =>
                if (extract_dependencies (p.parseManifest m)).contains d then s + 5 else s) s
            else s)
          (cfg.files.foldl (fun s f => if p.fileExists f then s + 3 else s) 0)))) = _
  rw [foldl_if_add, foldl_if_add, foldl_if_add]
  rw [foldl_ext
    (fun s m =>
      if p.fileExists m then
        cfg.dependencies.foldl (fun s d =>
          if (extract_dependencies (p.parseManifest m)).contains d then s + 5 else s) s
      else s)
    (fun s m => s + 5 * (if p.fileExists m then
      (cfg.dependencies.filter (fun d =>
        (extract_dependencies (p.parseManifest m)).contains d)).length else 0))
    manifest_files
    _
    (by
      intro s m
      simp only []
      by_cases hf : p.fileExists m
      · rw [if_pos hf, if_pos hf, foldl_if_add]
      · rw [if_neg hf, if_neg hf]
        omega)]
  rw [foldl_add_sum]
  rw [List.sum_map_mul_left]
  omega

/-- A positive framework score is at least 2: every scoring increment is
3, 5 or 2. -/
theorem framework_score_pos_ge_two (p : Project) (cfg : FrameworkConfig)
    (h : 0 < calculate_framework_score p cfg) :
    2 ≤ calculate_framework_score p cfg := by
  rw [framework_score_decompose] at h ⊢
  omega

/-- **C10.** Every framework in `detect`'s results has a raw score of at
least 2, so its confidence tier is never `very_low`. -/
theorem detect_confidence_spec (p : Project) (x : String × ℕ)
    (hx : x ∈ (detect p).all) :
    2 ≤ x.2 ∧ calculate_confidence x.2 ≠ "very_low" ∧
      calculate_confidence x.2 ∈ (["low", "medium", "high", "very_high"] : List String) := by
  have hdet : x ∈ framework_patterns.filterMap
      (fun nc =>
        let score := calculate_framework_score p nc.2
        if 0 < score then some (nc.1, score) else none) := by
    simpa [detect, mem_sortDesc] using hx
  rw [List.mem_filterMap] at hdet
  obtain ⟨nc, hmem, hnc⟩ := hdet
  by_cases hpos : 0 < calculate_framework_score p nc.2
  · simp only [if_pos hpos] at hnc
    obtain rfl := Option.some.inj hnc
    have h2 : 2 ≤ calculate_framework_score p nc.2 :=
      framework_score_pos_ge_two p nc.2 hpos
    refine ⟨h2, ?_, ?_⟩
    · unfold calculate_confidence
      split_ifs <;> first | decide | omega
    · unfold calculate_confidence
      split_ifs <;> first | decide | omega
  · simp only [if_neg hpos] at hnc
    exact absurd hnc (by simp)

/-- **C10, witness instance.** The laravel entry detected on the
`artisan`-only project has score 3 and tier `low`. -/
theorem detect_confidence_spec_witness :
    2 ≤ (("laravel", 3) : String × ℕ).2 ∧
      calculate_confidence (("laravel", 3) : String × ℕ).2 ≠ "very_low" ∧
      calculate_confidence (("laravel", 3) : String × ℕ).2
        ∈ (["low", "medium", "high", "very_high"] : List String) :=
  detect_confidence_spec artisanProject ("laravel", 3) (by decide)

theorem find_pattern_congr (p q : Project) (hf : p.fileExists = q.fileExists)
    (hr : p.regexFound = q.regexFound) :
    find_pattern_in_project p = find_pattern_in_project q := by
  funext pat
  unfold find_pattern_in_project
  rw [hf, hr]

/-- The framework score depends on the manifest parses only through the
extracted dependency sets. -/
theorem framework_score_congr (p q : Project) (hf : p.fileExists = q.fileExists)
    (hr : p.regexFound = q.regexFound)
    (he : ∀ m, extract_dependencies (p.parseManifest m)
      = extract_dependencies (q.parseManifest m))
    (cfg : FrameworkConfig) :
    calculate_framework_score p cfg = calculate_framework_score q cfg := by
  rw [framework_score_decompose, framework_score_decompose, hf,
    find_pattern_congr p q hf hr]
  simp only [he]

/-- **C8.** A malformed manifest contributes the empty dependency set, and
detection proceeds exactly as if that manifest had parsed to no
dependencies: `detect` returns normally (no error escapes) and the other
signal types are unaffected. -/
theorem malformed_manifest_recovered (p : Project) (m msg : String)
    (hm : m ∈ manifest_files)
    (hp : p.parseManifest m = .error msg) :
    extract_dependencies (p.parseManifest m) = [] ∧
    detect p = detect { p with parseManifest := fun n =>
      if n = m then (Except.ok [] : Except String (List String)) else p.parseManifest n } := by
  have hext : ∀ n,
      extract_dependencies (if n = m then (Except.ok [] : Except String (List String))
          else p.parseManifest n)
        = extract_dependencies (p.parseManifest n) := by
    intro n
    by_cases hn : n = m
    · subst hn
      rw [if_pos rfl, hp]
      rfl
    · rw [if_neg hn]
  constructor
  · rw [hp]; rfl
  · have hs : ∀ cfg, calculate_framework_score p cfg
        = calculate_framework_score
            { p with parseManifest := fun n => if n = m then (Except.ok [] : Except String (List String)) else p.parseManifest n }
            cfg := by
      intro cfg
      exact (framework_score_congr
        { p with parseManifest := fun n =>
            if n = m then (Except.ok [] : Except String (List String))
            else p.parseManifest n }
        p rfl rfl hext cfg).symm
    unfold detect
    simp only [hs]

/-- A project whose `package.json` exists but fails to parse. -/
def badManifestProject : Project :=
  { fileExists := fun s => s == "package.json"
    parseManifest := fun _ => .error "Expecting value: line 1 column 1 (char 0)"
    regexFound := fun _ => false }

/-- **C8, witness instance.** -/
theorem malformed_manifest_recovered_witness :
    extract_dependencies (badManifestProject.parseManifest "package.json") = [] ∧
    detect badManifestProject
      = detect { badManifestProject with parseManifest := fun n =>
          if n = "package.json" then (Except.ok [] : Except String (List String)) else badManifestProject.parseManifest n } :=
  malformed_manifest_recovered badManifestProject "package.json"
    "Expecting value: line 1 column 1 (char 0)" (by decide) rfl

/-- **C9.** `analyze_project` fails with the not-found error when the path
does not exist, with the permission error when it exists but is unreadable,
and otherwise returns the analysis outcome unchanged (errors are
propagated, never swallowed or retried). -/
theorem analyze_project_errors {α : Type} (path : String) (pathExists readable : Bool)
    (body : Except AgentError α) :
    (pathExists = false →
      analyze_project path pathExists readable body
        = .error (.notFound ("Path progetto non trovato: " ++ path))) ∧
    (pathExists = true → readable = false →
      analyze_project path pathExists readable body
        = .error (.permissionDenied ("Nessun permesso di lettura: " ++ path))) ∧
    (pathExists = true → readable = true →
      analyze_project path pathExists readable body = body) := by
  refine ⟨fun h => ?_, fun h1 h2 => ?_, fun h1 h2 => ?_⟩ <;> subst_vars <;> rfl

/-- **C9, witness instance.** -/
theorem analyze_project_errors_witness :
    analyze_project "demo" false true (Except.ok (0 : ℕ))
        = .error (.notFound ("Path progetto non trovato: " ++ "demo")) ∧
    analyze_project "demo" true false (Except.ok (0 : ℕ))
        = .error (.permissionDenied ("Nessun permesso di lettura: " ++ "demo")) :=
  ⟨(analyze_project_errors "demo" false true (Except.ok 0)).1 rfl,
   (analyze_project_errors "demo" true false (Except.ok 0)).2.1 rfl rfl⟩

/-- `language_scores.get(name, 0)`: the summed extension counts of the
table entry named `name` (0 for a name not in the table). -/
def langScoreByName (counts : String → ℕ) (name : String) : ℕ :=
  ((language_extensions.find? (fun le => le.1 == name)).map
    (fun le => languageScore counts le.2)).getD 0

/-- **C7.** A language appears in `detect_languages`'s output iff at least
one of its extensions has a nonzero count; the output is ordered by
non-increasing summed extension count; and two detected languages with
equal scores appear in table declaration order. -/
theorem detect_languages_spec (tree : List FsEntry) :
    (∀ name, name ∈ detect_languages tree ↔
        ∃ le ∈ language_extensions, le.1 = name ∧
          ∃ e ∈ le.2, 0 < languageExtCounts tree e) ∧
    List.Pairwise (fun a b => langScoreByName (languageExtCounts tree) b
        ≤ langScoreByName (languageExtCounts tree) a) (detect_languages tree) ∧
    (∀ pa pb : String × List String,
      List.Sublist [pa, pb] language_extensions →
      (∃ e ∈ pa.2, 0 < languageExtCounts tree e) →
      (∃ e ∈ pb.2, 0 < languageExtCounts tree e) →
      languageScore (languageExtCounts tree) pa.2
          = languageScore (languageExtCounts tree) pb.2 →
      List.Sublist [pa.1, pb.1] (detect_languages tree)) := by
  have hdl : detect_languages tree =
      (sortDesc (fun le => languageScore (languageExtCounts tree) le.2)
        (language_extensions.filter
          (fun le => le.2.any (fun e => decide (0 < languageExtCounts tree e))))).map
        Prod.fst := rfl
  refine ⟨?_, ?_, ?_⟩
  · intro name
    rw [hdl, List.mem_map]
    constructor
    · rintro ⟨le, hle, rfl⟩
      obtain ⟨htab, hpred⟩ := List.mem_filter.mp ((mem_sortDesc _ _ le).mp hle)
      refine ⟨le, htab, rfl, ?_⟩
      simpa using hpred
    · rintro ⟨le, htab, hname, hex⟩
      refine ⟨le, ?_, hname⟩
      exact (mem_sortDesc _ _ le).mpr (List.mem_filter.mpr ⟨htab, by simpa using hex⟩)
  · rw [hdl, List.pairwise_map]
    have hnodup : (language_extensions.map Prod.fst).Nodup := by decide
    have hsorted := pairwise_sortDesc
      (fun le => languageScore (languageExtCounts tree) le.2)
      (language_extensions.filter
        (fun le => le.2.any (fun e => decide (0 < languageExtCounts tree e))))
    refine hsorted.imp_of_mem ?_
    intro a b ha hb hab
    have hta : a ∈ language_extensions :=
      List.mem_of_mem_filter ((mem_sortDesc _ _ a).mp ha)
    have htb : b ∈ language_extensions :=
      List.mem_of_mem_filter ((mem_sortDesc _ _ b).mp hb)
    have hfa := find_of_nodup_fst language_extensions hnodup a hta
    have hfb := find_of_nodup_fst language_extensions hnodup b htb
    simp only [langScoreByName, hfa, hfb, Option.map_some', Option.getD_some]
    exact hab
  · intro pa pb hsub hpa hpb hsc
    have hfil : List.Sublist
        ([pa, pb].filter
          (fun le => le.2.any (fun e => decide (0 < languageExtCounts tree e))))
        (language_extensions.filter
          (fun le => le.2.any (fun e => decide (0 < languageExtCounts tree e)))) :=
      List.Sublist.filter _ hsub
    have h1 : (pa.2.any (fun e => decide (0 < languageExtCounts tree e))) = true := by
      simpa using hpa
    have h2 : (pb.2.any (fun e => decide (0 < languageExtCounts tree e))) = true := by
      simpa using hpb
    have heq : [pa, pb].filter
        (fun le => le.2.any (fun e => decide (0 < languageExtCounts tree e)))
        = [pa, pb] := by
      simp [List.filter, h1, h2]
    rw [heq] at hfil
    have hstab := sortDesc_stable
      (fun le => languageScore (languageExtCounts tree) le.2) pa pb _ hfil (le_of_eq hsc.symm)
    rw [hdl]
    exact hstab.map Prod.fst

/-- A tree with one `.js` file and one `.html` file: `javascript` and
`html` tie at one counted file each. -/
def twoLangTree : List FsEntry := [.file [] "a.js" 10, .file [] "b.html" 20]

/-- **C7, witness instance.** On the tied tree, `javascript` (declared
first in the table) precedes `html` in the output. -/
theorem detect_languages_spec_witness :
    List.Sublist ["javascript", "html"] (detect_languages twoLangTree) :=
  (detect_languages_spec twoLangTree).2.2
    ("javascript", [".js", ".jsx", ".mjs"]) ("html", [".html", ".htm"])
    (List.Sublist.cons₂ _ (List.singleton_sublist.mpr (by decide)))
    ⟨".js", by decide, by decide⟩ ⟨".html", by decide, by decide⟩ (by decide)
